import Mathlib

/-!
# The greetd session controller of `src/CommandLine.cpp`

A shallow embedding of the class `CommandLine`: the framing of outbound
requests (`roundtrip`), the handling of inbound data (`handleDataRead` and the
handlers it calls) and the caller entry points (`tryLogin`, `RequestLogin`,
the property setters and the constructor).

The Qt value types the code relies on (`QString`, `QByteArray`, `QVariantMap`,
`QJsonDocument`) are library code; the first part of the file models the
operations on them that the class calls.  Fields and methods that only serve
the presentation layer (`m_currentDate`, `m_backgroundImagePath`, `m_opacity`,
`m_userIcon`, `UnLock`, `RequestShutDown`) do not take part in the protocol and
are left out.
-/

namespace Qt

/-! ## Text and bytes -/

/-- A `QString`, as the sequence of Unicode scalar values it holds.  (A
`QString` stores UTF-16 code units; a string with an unpaired surrogate has no
counterpart here.) -/
abbrev QString := List Char

/-- A `QByteArray`: a sequence of bytes, each a number below 256. -/
abbrev QByteArray := List Nat

/-- Number of UTF-16 code units one scalar value takes in a `QString`. -/
def utf16Units (c : Char) : Nat :=
  if c.toNat < 65536 then 1 else 2

/-- `QString::length()`: the number of UTF-16 code units (`QChar`s) held. -/
def lengthUtf16 (s : QString) : Nat :=
  (s.map utf16Units).sum

/-- `QString::isEmpty()`. -/
def isEmpty (s : QString) : Bool :=
  s.isEmpty

/-- UTF-8 encoding of one scalar value. -/
def utf8EncodeChar (c : Char) : QByteArray :=
  let v := c.toNat
  if v < 128 then [v]
  else if v < 2048 then [192 + v / 64, 128 + v % 64]
  else if v < 65536 then [224 + v / 4096, 128 + v / 64 % 64, 128 + v % 64]
  else [240 + v / 262144, 128 + v / 4096 % 64, 128 + v / 64 % 64, 128 + v % 64]

/-- `QString::toUtf8()`. -/
def toUtf8 (s : QString) : QByteArray :=
  s.flatMap utf8EncodeChar

/-- The four bytes `(const char *)&length` of a `qint32` on a little-endian
host: the value is reduced to 32 bits and stored least significant byte
first. -/
def qint32Bytes (n : Nat) : QByteArray :=
  let w := n % 2 ^ 32
  [w % 256, w / 256 % 256, w / 65536 % 256, w / 16777216 % 256]

/-- The unsigned number a little-endian byte sequence stands for. -/
def littleEndianValue : QByteArray → Nat
  | [] => 0
  | b :: bs => b + 256 * littleEndianValue bs

/-- `QString::split(sep)` with the default `Qt::KeepEmptyParts`: the pieces
between successive occurrences of `sep`, empty pieces included. -/
def split (sep : Char) : QString → List QString
  | [] => [[]]
  | c :: cs =>
    if c = sep then [] :: split sep cs
    else
      match split sep cs with
      | [] => [[c]]
      | w :: ws => (c :: w) :: ws

/-- The spacing characters of `QByteArray::simplified()`: the space and the
characters 9 to 13 (tab, line feed, vertical tab, form feed, carriage
return). -/
def isSpace (c : Char) : Bool :=
  c = ' ' || (9 ≤ c.toNat && c.toNat ≤ 13)

/-- The copying loop of `simplified()`: `mode` is 0 before the first character
has been copied, 1 right after a copied character and 2 when spacing has been
skipped after a copied character. -/
def simplifiedGo : Nat → List Char → List Char
  | _, [] => []
  | mode, c :: cs =>
    if isSpace c then simplifiedGo (if mode = 0 then 0 else 2) cs
    else if mode = 2 then ' ' :: c :: simplifiedGo 1 cs
    else c :: simplifiedGo 1 cs

/-- `QByteArray::simplified()` on UTF-8 text: spacing is removed from both
ends and every inner run of spacing becomes one space.  Spacing characters are
single bytes in UTF-8, so the operation is modelled on the decoded text. -/
def simplified (s : List Char) : List Char :=
  simplifiedGo 0 s

/-! ## `QString::arg` -/

/-- A piece of a format string as `QString::arg` reads it: one character of
plain text, or a place marker (`%1`, `%L2`, `%07`, ...) with its number and
its spelling. -/
inductive ArgPiece
  | text (c : Char)
  | escape (n : Nat) (raw : List Char)
  deriving DecidableEq, Repr

/-- Where the scan of a format string stands: in plain text, after `%`, after
`%L`, or after the first digit of a place marker. -/
inductive ArgScan
  | plain
  | percent
  | percentL
  | digit (n : Nat) (raw : List Char)

/-- The value of an ASCII digit (the place markers of `arg` are written with
the digits 0 to 9). -/
def digitValue (c : Char) : Option Nat :=
  if 48 ≤ c.toNat ∧ c.toNat ≤ 57 then some (c.toNat - 48) else none

/-- The scan of `findArgEscapes` and `replaceArgEscapes`: a place marker is `%`,
an optional `L` and one or two digits; a `%` that no digit follows is plain
text and the scan goes on at the character after it. -/
def argScan : ArgScan → List Char → List ArgPiece
  | .plain, [] => []
  | .percent, [] => [.text '%']
  | .percentL, [] => [.text '%', .text 'L']
  | .digit n raw, [] => [.escape n raw]
  | .plain, c :: cs =>
    if c = '%' then argScan .percent cs else .text c :: argScan .plain cs
  | .percent, c :: cs =>
    if c = 'L' then argScan .percentL cs
    else match digitValue c with
      | some d => argScan (.digit d ['%', c]) cs
      | none =>
        if c = '%' then .text '%' :: argScan .percent cs
        else .text '%' :: .text c :: argScan .plain cs
  | .percentL, c :: cs =>
    match digitValue c with
    | some d => argScan (.digit d ['%', 'L', c]) cs
    | none =>
      if c = '%' then .text '%' :: .text 'L' :: argScan .percent cs
      else .text '%' :: .text 'L' :: .text c :: argScan .plain cs
  | .digit n raw, c :: cs =>
    match digitValue c with
    | some d => .escape (10 * n + d) (raw ++ [c]) :: argScan .plain cs
    | none =>
      if c = '%' then .escape n raw :: argScan .percent cs
      else .escape n raw :: .text c :: argScan .plain cs

/-- The lowest place-marker number among the pieces (`min_escape`), if there is
a marker at all. -/
def lowestEscape : List ArgPiece → Option Nat
  | [] => none
  | .text _ :: ps => lowestEscape ps
  | .escape n _ :: ps =>
    match lowestEscape ps with
    | none => some n
    | some m => some (min n m)

/-- `QString::arg(const QString &a)`: every occurrence of the lowest numbered
place marker is replaced by `a`; a string without a place marker is returned
as it is. -/
def arg (s a : QString) : QString :=
  match lowestEscape (argScan .plain s) with
  | none => s
  | some m =>
    (argScan .plain s).flatMap fun p =>
      match p with
      | .text c => [c]
      | .escape n raw => if n = m then a else raw

/-! ## `QVariantMap` and the JSON writer -/

/-- The `QVariant` values the requests hold: a `QString` or a `QStringList`. -/
inductive QVariant
  | String (s : QString)
  | StringList (l : List QString)
  deriving DecidableEq, Repr

/-- A `QVariantMap` (`QMap<QString, QVariant>`): the entries in key order. -/
abbrev QVariantMap := List (QString × QVariant)

/-- The UTF-16 code units of a string, the order `QString` keys compare in. -/
def toUtf16 (s : QString) : List Nat :=
  s.flatMap fun c =>
    if c.toNat < 65536 then [c.toNat]
    else [55296 + (c.toNat - 65536) / 1024, 56320 + (c.toNat - 65536) % 1024]

/-- Lexicographic order on code-unit sequences. -/
def lexLt : List Nat → List Nat → Bool
  | _, [] => false
  | [], _ :: _ => true
  | a :: as, b :: bs => a < b || (a = b && lexLt as bs)

/-- `map[key] = value`: the entry with this key is replaced, or a new entry is
put at its place in key order. -/
def QVariantMap.assign (m : QVariantMap) (key : QString) (value : QVariant) : QVariantMap :=
  match m with
  | [] => [(key, value)]
  | (k, w) :: rest =>
    if key = k then (k, value) :: rest
    else if lexLt (toUtf16 key) (toUtf16 k) then (key, value) :: (k, w) :: rest
    else (k, w) :: QVariantMap.assign rest key value

/-- The hexadecimal digit `hexdig` of the JSON writer. -/
def hexdig (u : Nat) : Char :=
  Char.ofNat (if u < 10 then 48 + u else 97 + u - 10)

/-- How the JSON writer puts one character of a string: the quote, the
backslash and the characters below 32 are escaped, everything else is written
as it is (in UTF-8). -/
def escapedChar (c : Char) : List Char :=
  let u := c.toNat
  if u < 128 ∧ (u < 32 ∨ u = 34 ∨ u = 92) then
    '\\' ::
      (if u = 34 then ['"']
       else if u = 92 then ['\\']
       else if u = 8 then ['b']
       else if u = 12 then ['f']
       else if u = 10 then ['n']
       else if u = 13 then ['r']
       else if u = 9 then ['t']
       else ['u', '0', '0', hexdig (u / 16), hexdig (u % 16)])
  else [c]

/-- The `escapedString` of the JSON writer. -/
def escapedString (s : QString) : List Char :=
  s.flatMap escapedChar

/-- A JSON string literal. -/
def stringToJson (s : QString) : List Char :=
  '"' :: escapedString s ++ ['"']

/-- Four spaces per indentation level. -/
def indentation (indent : Nat) : List Char :=
  List.replicate (4 * indent) ' '

/-- The `arrayContentToJson` of the writer in its indented format, for an array
of strings: one element per line, separated by commas. -/
def arrayContentToJson : List QString → Nat → List Char
  | [], _ => []
  | [x], indent => indentation indent ++ stringToJson x ++ ['\n']
  | x :: y :: rest, indent =>
    indentation indent ++ stringToJson x ++ [',', '\n'] ++ arrayContentToJson (y :: rest) indent

/-- The `valueToJson` of the writer in its indented format, for the values a
request holds (`QJsonValue::fromVariant` turns a `QString` into a JSON string
and a `QStringList` into an array of strings). -/
def valueToJson (v : QVariant) (indent : Nat) : List Char :=
  match v with
  | .String s => stringToJson s
  | .StringList l =>
    ['[', '\n'] ++ arrayContentToJson l (indent + 1) ++ indentation indent ++ [']']

/-- The `objectContentToJson` of the writer in its indented format: one member
per line, separated by commas. -/
def objectContentToJson : QVariantMap → Nat → List Char
  | [], _ => []
  | [(k, v)], indent =>
    indentation indent ++ stringToJson k ++ [':', ' '] ++ valueToJson v indent ++ ['\n']
  | (k, v) :: e :: rest, indent =>
    indentation indent ++ stringToJson k ++ [':', ' '] ++ valueToJson v indent ++ [',', '\n']
      ++ objectContentToJson (e :: rest) indent

/-- The text of `json.setObject(QJsonObject::fromVariantMap(request))` followed
by `json.toJson()` (the indented format is the default). -/
def toJson (request : QVariantMap) : List Char :=
  ['{', '\n'] ++ objectContentToJson request 1 ++ ['}', '\n']

/-! ## The JSON reader

`QJsonDocument::fromJson` reads a UTF-8 text that must be one JSON object or
array, surrounded by optional white space.  The program only looks at string
members of the top-level object, so the contents of nested arrays and objects
are checked but not kept. -/

/-- A `QJsonValue`, with the contents of arrays, objects and numbers left out. -/
inductive QJsonValue
  | Null
  | Bool (b : Bool)
  | Double
  | String (s : QString)
  | Array
  | Object
  | Undefined
  deriving DecidableEq, Repr

/-- `QJsonValue::toString()`: the string held, and the empty string for a value
of any other type. -/
def QJsonValue.toString : QJsonValue → QString
  | .String s => s
  | _ => []

/-- A `QJsonObject`: its members as written; a key written twice stands for its
last value. -/
abbrev QJsonObject := List (QString × QJsonValue)

/-- `object[key]`: the value of the member, `Undefined` when there is none. -/
def QJsonObject.value : QJsonObject → QString → QJsonValue
  | [], _ => .Undefined
  | (k, v) :: rest, key =>
    match QJsonObject.value rest key with
    | .Undefined => if k = key then v else .Undefined
    | later => later

/-- A `QJsonDocument`: null (also the result of a failed parse), an array or an
object. -/
inductive QJsonDocument
  | Null
  | Array
  | Object (o : QJsonObject)
  deriving DecidableEq, Repr

/-- `QJsonDocument::object()`: the object held, and an empty object when the
document is null or holds an array. -/
def QJsonDocument.object : QJsonDocument → QJsonObject
  | .Object o => o
  | _ => []

/-- Whether a byte is a UTF-8 continuation byte. -/
def isContinuation (b : Nat) : Bool :=
  128 ≤ b && b < 192

/-- Decoding of UTF-8; overlong forms, surrogates and values above 0x10FFFF
are refused. -/
def utf8Decode : QByteArray → Option (List Char)
  | [] => some []
  | b0 :: rest =>
    if b0 < 128 then (utf8Decode rest).map (Char.ofNat b0 :: ·)
    else if b0 < 224 then
      match rest with
      | b1 :: r =>
        let v := (b0 - 192) * 64 + (b1 - 128)
        if 192 ≤ b0 ∧ isContinuation b1 ∧ 128 ≤ v then (utf8Decode r).map (Char.ofNat v :: ·)
        else none
      | _ => none
    else if b0 < 240 then
      match rest with
      | b1 :: b2 :: r =>
        let v := (b0 - 224) * 4096 + (b1 - 128) * 64 + (b2 - 128)
        if isContinuation b1 ∧ isContinuation b2 ∧ 2048 ≤ v ∧ ¬ (55296 ≤ v ∧ v < 57344) then
          (utf8Decode r).map (Char.ofNat v :: ·)
        else none
      | _ => none
    else if b0 < 248 then
      match rest with
      | b1 :: b2 :: b3 :: r =>
        let v := (b0 - 240) * 262144 + (b1 - 128) * 4096 + (b2 - 128) * 64 + (b3 - 128)
        if isContinuation b1 ∧ isContinuation b2 ∧ isContinuation b3 ∧ 65536 ≤ v ∧ v < 1114112 then
          (utf8Decode r).map (Char.ofNat v :: ·)
        else none
      | _ => none
    else none

/-- Decoding of UTF-16 code units; an unpaired surrogate is refused. -/
def utf16Decode : List Nat → Option (List Char)
  | [] => some []
  | u :: rest =>
    if u < 55296 ∨ (57344 ≤ u ∧ u < 65536) then (utf16Decode rest).map (Char.ofNat u :: ·)
    else if 55296 ≤ u ∧ u < 56320 then
      match rest with
      | w :: r =>
        if 56320 ≤ w ∧ w < 57344 then
          (utf16Decode r).map (Char.ofNat (65536 + (u - 55296) * 1024 + (w - 56320)) :: ·)
        else none
      | _ => none
    else none

/-- The `eatSpace` of the reader: space, tab, line feed and carriage return. -/
def eatSpace : List Char → List Char
  | [] => []
  | c :: cs => if c = ' ' ∨ c = '\t' ∨ c = '\n' ∨ c = '\r' then eatSpace cs else c :: cs

/-- The value of a hexadecimal digit of a `\u` escape. -/
def hexValue (c : Char) : Option Nat :=
  let u := c.toNat
  if 48 ≤ u ∧ u ≤ 57 then some (u - 48)
  else if 97 ≤ u ∧ u ≤ 102 then some (u - 87)
  else if 65 ≤ u ∧ u ≤ 70 then some (u - 55)
  else none

/-- The character an escape letter stands for (`scanEscapeSequence`); a letter
without a meaning of its own stands for itself. -/
def escapeValue (e : Char) : Option Nat :=
  if e = 'b' then some 8
  else if e = 'f' then some 12
  else if e = 'n' then some 10
  else if e = 'r' then some 13
  else if e = 't' then some 9
  else if e.toNat < 128 then some e.toNat
  else none

/-- The text of a string after its opening quote, as UTF-16 code units, and
the input after the closing quote. -/
def scanString : List Char → Option (List Nat × List Char)
  | [] => none
  | c :: cs =>
    if c = '"' then some ([], cs)
    else if c = '\\' then
      match cs with
      | [] => none
      | e :: es =>
        if e = 'u' then
          match es with
          | h1 :: h2 :: h3 :: h4 :: rest =>
            match hexValue h1, hexValue h2, hexValue h3, hexValue h4 with
            | some a, some b, some c, some d =>
              (scanString rest).map fun (s, r) => ((4096 * a + 256 * b + 16 * c + d) :: s, r)
            | _, _, _, _ => none
          | _ => none
        else
          match escapeValue e with
          | some u => (scanString es).map fun (s, r) => (u :: s, r)
          | none => none
    else (scanString cs).map fun (s, r) => (toUtf16 [c] ++ s, r)

/-- The `parseString` of the reader: the string after its opening quote. -/
def parseString (cs : List Char) : Option (QString × List Char) :=
  match scanString cs with
  | none => none
  | some (units, rest) => (utf16Decode units).map fun s => (s, rest)

/-- The leading decimal digits of the input and what follows them. -/
def spanDigits : List Char → List Char × List Char
  | [] => ([], [])
  | c :: cs =>
    if 48 ≤ c.toNat ∧ c.toNat ≤ 57 then (c :: (spanDigits cs).1, (spanDigits cs).2)
    else ([], c :: cs)

/-- The `parseNumber` of the reader: an optional minus sign, the integer digits
(a single `0`, or a run of digits), an optional fraction and an optional
exponent.  The token must not end the input, and it is converted to a number,
which needs a digit in the mantissa and in the exponent if there is one.  The
result is the input after the token. -/
def parseNumber (cs : List Char) : Option (List Char) :=
  let cs1 := match cs with
    | c :: r => if c = '-' then r else cs
    | [] => cs
  let (intDigits, cs2) := match cs1 with
    | c :: r => if c = '0' then ([c], r) else spanDigits cs1
    | [] => ([], cs1)
  let (fracDigits, cs3) := match cs2 with
    | c :: r => if c = '.' then spanDigits r else ([], cs2)
    | [] => ([], cs2)
  let (expOk, cs4) := match cs3 with
    | c :: r =>
      if c = 'e' ∨ c = 'E' then
        let r1 := match r with
          | s :: r2 => if s = '-' ∨ s = '+' then r2 else r
          | [] => r
        (!(spanDigits r1).1.isEmpty, (spanDigits r1).2)
      else (true, cs3)
    | [] => (true, cs3)
  if cs4.isEmpty then none
  else if (intDigits.isEmpty && fracDigits.isEmpty) || !expOk then none
  else some cs4

/-- The input after the given word, when the input starts with it. -/
def expectWord : List Char → List Char → Option (List Char)
  | [], cs => some cs
  | _ :: _, [] => none
  | w :: ws, c :: cs => if w = c then expectWord ws cs else none

/-- Arrays and objects may be nested 1024 deep. -/
def nestingLimit : Nat := 1024

mutual

/-- The `parseValue` of the reader; `depth` is the nesting level of the value. -/
def parseValue : Nat → Nat → List Char → Option (QJsonValue × List Char)
  | 0, _, _ => none
  | _ + 1, _, [] => none
  | fuel + 1, depth, c :: rest =>
    if c = 'n' then (expectWord ['u', 'l', 'l'] rest).map fun r => (.Null, r)
    else if c = 't' then (expectWord ['r', 'u', 'e'] rest).map fun r => (.Bool true, r)
    else if c = 'f' then (expectWord ['a', 'l', 's', 'e'] rest).map fun r => (.Bool false, r)
    else if c = '"' then (parseString rest).map fun (s, r) => (.String s, r)
    else if c = '[' then (parseArray fuel (depth + 1) rest).map fun r => (.Array, r)
    else if c = '{' then (parseObject fuel (depth + 1) rest).map fun (_, r) => (.Object, r)
    else if c = ']' then none
    else (parseNumber (c :: rest)).map fun r => (.Double, r)
termination_by structural fuel => fuel

/-- The `parseArray` of the reader, after the opening bracket; the result is
the input after the closing bracket. -/
def parseArray : Nat → Nat → List Char → Option (List Char)
  | 0, _, _ => none
  | fuel + 1, depth, cs =>
    if depth > nestingLimit then none
    else
      match eatSpace cs with
      | [] => none
      | c :: rest => if c = ']' then some rest else parseElements fuel depth (c :: rest)
termination_by structural fuel => fuel

/-- The loop of `parseArray`: a value, then a comma and the next value or the
closing bracket. -/
def parseElements : Nat → Nat → List Char → Option (List Char)
  | 0, _, _ => none
  | fuel + 1, depth, cs =>
    match parseValue fuel depth (eatSpace cs) with
    | none => none
    | some (_, r) =>
      match eatSpace r with
      | [] => none
      | t :: r1 =>
        if t = ']' then some r1
        else if t = ',' then parseElements fuel depth r1
        else none
termination_by structural fuel => fuel

/-- The `parseObject` of the reader, after the opening brace; the result is
the members and the input after the closing brace. -/
def parseObject : Nat → Nat → List Char → Option (QJsonObject × List Char)
  | 0, _, _ => none
  | fuel + 1, depth, cs =>
    if depth > nestingLimit then none
    else
      match eatSpace cs with
      | [] => none
      | c :: rest =>
        if c = '}' then some ([], rest)
        else if c = '"' then parseMembers fuel depth rest
        else none
termination_by structural fuel => fuel

/-- The loop of `parseObject` with `parseMember`, after the opening quote of a
key: the key, a colon, the value, then a comma and the next member or the
closing brace. -/
def parseMembers : Nat → Nat → List Char → Option (QJsonObject × List Char)
  | 0, _, _ => none
  | fuel + 1, depth, cs =>
    match parseString cs with
    | none => none
    | some (key, r) =>
      match eatSpace r with
      | [] => none
      | colon :: r1 =>
        if colon = ':' then
          match parseValue fuel depth (eatSpace r1) with
          | none => none
          | some (v, r2) =>
            match eatSpace r2 with
            | [] => none
            | t :: r3 =>
              if t = '}' then some ([(key, v)], r3)
              else if t = ',' then
                match eatSpace r3 with
                | [] => none
                | q :: r4 =>
                  if q = '"' then
                    (parseMembers fuel depth r4).map fun (ms, r5) => ((key, v) :: ms, r5)
                  else none
              else none
        else none
termination_by structural fuel => fuel

end

/-- The `parse` of the reader on decoded text: an optional byte order mark,
white space, one array or object, white space, and nothing more.  Every call
of the functions above uses up a character of the text within three steps, so
the fuel given is never used up. -/
def parseDocument (text : List Char) : QJsonDocument :=
  let text := match text with
    | c :: r => if c.toNat = 65279 then r else text
    | [] => text
  let fuel := 3 * text.length + 3
  match eatSpace text with
  | [] => .Null
  | c :: rest =>
    if c = '[' then
      match parseArray fuel 1 rest with
      | some r => if (eatSpace r).isEmpty then .Array else .Null
      | none => .Null
    else if c = '{' then
      match parseObject fuel 1 rest with
      | some (o, r) => if (eatSpace r).isEmpty then .Object o else .Null
      | none => .Null
    else .Null

/-- `QJsonDocument::fromJson(data)`: the document the bytes spell, and the null
document when they are not valid UTF-8 or not a JSON document. -/
def QJsonDocument.fromJson (data : QByteArray) : QJsonDocument :=
  match utf8Decode data with
  | none => .Null
  | some text => parseDocument text

end Qt

/-! ## The class `CommandLine` -/

open Qt

/-- Modelled from the spec: the enumeration `LoginStatus` is declared in
`CommandLine.h`, which is not among the sources read here; its values are the
states that section 4.2 of the spec lists, under the names the code uses. -/
inductive LoginStatus
  | Start
  | TryToLoginSession
  | TryToStartSession
  | LoginSuccessded
  | Errored
  | CancelSessionSuccessded
  deriving DecidableEq, Repr

/-- The change signals the class emits. -/
inductive Signal
  | passwordChanged
  | userIconChanged
  | userNameChanged
  | commandChanged
  | envChanged
  | errorMessageChanged
  | isAuthingChanged
  deriving DecidableEq, Repr

/-- The `QLocalSocket` towards greetd, as seen by the class: the byte arrays
handed to `write`, one entry per call, oldest first. -/
structure QLocalSocket where
  written : List QByteArray
  deriving DecidableEq, Repr

/-- `QLocalSocket::write(bytes)`. -/
def QLocalSocket.write (sock : QLocalSocket) (bytes : QByteArray) : QLocalSocket :=
  { written := sock.written ++ [bytes] }

/-- The members of `CommandLine` that take part in the protocol, with the types
the code uses them at; `m_greetd` is `none` for the null pointer.  `emitted` is
the list of signals emitted so far, oldest first. -/
structure CommandLine where
  m_userName : QString
  m_password : QString
  m_greetd : Option QLocalSocket
  m_status : LoginStatus
  m_command : QString
  m_isAuthing : Bool
  m_env : List QString
  m_errorMessage : QString
  emitted : List Signal
  deriving DecidableEq, Repr

namespace CommandLine

/-- `CommandLine::setPassword`. -/
def setPassword (self : CommandLine) (password : QString) : CommandLine :=
  { self with m_password := password, emitted := self.emitted ++ [.passwordChanged] }

/-- `CommandLine::setUserName` (the choice of the user icon is left out). -/
def setUserName (self : CommandLine) (userName : QString) : CommandLine :=
  if self.m_userName = userName then self
  else
    { self with
      m_userName := userName
      emitted := self.emitted ++ [.userIconChanged, .userNameChanged] }

/-- `CommandLine::setCommand`. -/
def setCommand (self : CommandLine) (command : QString) : CommandLine :=
  { self with m_command := command, emitted := self.emitted ++ [.commandChanged] }

/-- `CommandLine::setEnv`. -/
def setEnv (self : CommandLine) (env : List QString) : CommandLine :=
  { self with m_env := env, emitted := self.emitted ++ [.envChanged] }

/-- `CommandLine::connectToGreetd`; `path` is the value of the environment
variable `GREETD_SOCK` (empty when it is not set).  The code does not look at
the result of `waitForConnected()`: with a path the socket object exists from
here on, and `write` is called on it whatever the state of the connection. -/
def connectToGreetd (self : CommandLine) (path : QString) : CommandLine :=
  if isEmpty path then
    { self with
      m_errorMessage := "Cannot connect to greetd".toList
      emitted := self.emitted ++ [.errorMessageChanged] }
  else { self with m_greetd := some { written := [] } }

/-- The constructor `CommandLine::CommandLine`; `user` is the value stored under
`user` in the settings and `path` the value of `GREETD_SOCK`. -/
def new (user path : QString) : CommandLine :=
  let self : CommandLine :=
    { m_userName := []
      m_password := []
      m_greetd := none
      m_status := .Start
      m_command := []
      m_isAuthing := false
      m_env := []
      m_errorMessage := []
      emitted := [] }
  let self := if !isEmpty user then setUserName self user else self
  connectToGreetd self path

/-- `CommandLine::roundtrip`: the length of the payload as a `qint32`, then the
payload in UTF-8, each handed to `write`.  Without a socket the call
dereferences a null pointer, which is `none`. -/
def roundtrip (self : CommandLine) (payload : QString) : Option CommandLine :=
  match self.m_greetd with
  | none => none
  | some sock =>
    let length := lengthUtf16 payload
    let sock := sock.write (qint32Bytes length)
    let sock := sock.write (toUtf8 payload)
    some { self with m_greetd := some sock }

/-- `CommandLine::handleAuthMessageNone`. -/
def handleAuthMessageNone (self : CommandLine) : Option CommandLine :=
  let request : QVariantMap := []
  let request := QVariantMap.assign request "type".toList
    (.String "post_auth_message_response".toList)
  roundtrip self (simplified (toJson request))

/-- `CommandLine::handleSuccessded`. -/
def handleSuccessded (self : CommandLine) : Option CommandLine :=
  match self.m_status with
  | .Errored => some { self with m_status := .CancelSessionSuccessded }
  | .TryToLoginSession =>
    let self := { self with m_status := .TryToStartSession }
    let request : QVariantMap := []
    let request := QVariantMap.assign request "type".toList (.String "start_session".toList)
    let request := QVariantMap.assign request "cmd".toList
      (.StringList (split ' ' self.m_command))
    let request := QVariantMap.assign request "env".toList (.StringList self.m_env)
    roundtrip self (simplified (toJson request))
  | .TryToStartSession => some { self with m_status := .LoginSuccessded }
  | _ => some self

/-- `CommandLine::handleAuthError`. -/
def handleAuthError (self : CommandLine) : Option CommandLine :=
  let self := { self with m_status := .Errored }
  let request : QVariantMap := []
  let request := QVariantMap.assign request "type".toList (.String "cancel_session".toList)
  match roundtrip self (simplified (toJson request)) with
  | none => none
  | some self =>
    some { self with m_isAuthing := false, emitted := self.emitted ++ [.isAuthingChanged] }

/-- `CommandLine::handleAuthPasswordMessage`. -/
def handleAuthPasswordMessage (self : CommandLine) : Option CommandLine :=
  let self :=
    { self with
      m_status := .TryToLoginSession
      m_isAuthing := true
      emitted := self.emitted ++ [.isAuthingChanged] }
  let request : QVariantMap := []
  let request := QVariantMap.assign request "type".toList
    (.String "post_auth_message_response".toList)
  let request := QVariantMap.assign request "response".toList (.String self.m_password)
  roundtrip self (simplified (toJson request))

/-- The first lines of `CommandLine::handleDataRead`: the first four bytes of
what was read are removed and the rest is parsed into a JSON object. -/
def readDocument (data : QByteArray) : QJsonObject :=
  let data := data.drop 4
  (QJsonDocument.fromJson data).object

/-- The rest of `CommandLine::handleDataRead`: the dispatch on the `type` of
the document. -/
def handleDocument (self : CommandLine) (document : QJsonObject) : Option CommandLine :=
  let authtype := (QJsonObject.value document "type".toList).toString
  if authtype = "auth_message".toList then
    let auth_message_type := (QJsonObject.value document "auth_message_type".toList).toString
    if auth_message_type = "secret".toList then handleAuthPasswordMessage self
    else handleAuthMessageNone self
  else if authtype = "error".toList then
    let error_type := (QJsonObject.value document "error_type".toList).toString
    let description := (QJsonObject.value document "description".toList).toString
    let self :=
      { self with
        m_errorMessage := arg (arg "%1: %2".toList error_type) description
        emitted := self.emitted ++ [.errorMessageChanged] }
    handleAuthError self
  else if authtype = "success".toList then handleSuccessded self
  else some self

/-- `CommandLine::handleDataRead`, the slot of the socket's `readyRead`; `data`
is what `m_greetd->readAll()` returns.  Without a socket the call dereferences
a null pointer, which is `none`. -/
def handleDataRead (self : CommandLine) (data : QByteArray) : Option CommandLine :=
  match self.m_greetd with
  | none => none
  | some _ => handleDocument self (readDocument data)

/-- `CommandLine::tryLogin`. -/
def tryLogin (self : CommandLine) : Option CommandLine :=
  match self.m_greetd with
  | none => some self
  | some _ =>
    let request : QVariantMap := []
    let request := QVariantMap.assign request "type".toList (.String "create_session".toList)
    let request := QVariantMap.assign request "username".toList (.String self.m_userName)
    roundtrip self (simplified (toJson request))

/-- `CommandLine::RequestLogin`. -/
def RequestLogin (self : CommandLine) : Option CommandLine :=
  if isEmpty self.m_password then
    some
      { self with
        m_errorMessage := "password is needed".toList
        emitted := self.emitted ++ [.errorMessageChanged] }
  else tryLogin self

end CommandLine

/-! ## Runs of the controller -/

/-- What can happen to a `CommandLine`: a call from the presentation layer, or
the socket's `readyRead` with the bytes that `readAll` returns. -/
inductive Event
  | setPassword (password : QString)
  | setUserName (userName : QString)
  | setCommand (command : QString)
  | setEnv (env : List QString)
  | tryLogin
  | RequestLogin
  | readyRead (data : QByteArray)
  deriving DecidableEq, Repr

/-- The effect of one event. -/
def step (self : CommandLine) : Event → Option CommandLine
  | .setPassword password => some (self.setPassword password)
  | .setUserName userName => some (self.setUserName userName)
  | .setCommand command => some (self.setCommand command)
  | .setEnv env => some (self.setEnv env)
  | .tryLogin => self.tryLogin
  | .RequestLogin => self.RequestLogin
  | .readyRead data => self.handleDataRead data

/-- The effect of a sequence of events, oldest first. -/
def run (self : CommandLine) : List Event → Option CommandLine
  | [] => some self
  | e :: es =>
    match step self e with
    | none => none
    | some next => run next es

/-! ## The vocabulary of the spec -/

/-- The frame of section 3 of the spec: a four-byte little-endian count of the
payload bytes, then the payload. -/
def specFrame (payload : QByteArray) : QByteArray :=
  qint32Bytes payload.length ++ payload

/-- The responses of section 3 of the spec. -/
inductive Response
  | auth_message (auth_message_type : QString)
  | error (error_type description : QString)
  | success
  deriving DecidableEq, Repr

/-- The requests of section 3 of the spec. -/
inductive Request
  | create_session (username : QString)
  | post_auth_message_response (response : Option QString)
  | start_session (cmd env : List QString)
  | cancel_session
  deriving DecidableEq, Repr

/-- The response a decoded document is, by its `type` member; `none` for a
document of no known type. -/
def Response.ofDocument (document : QJsonObject) : Option Response :=
  let type := (QJsonObject.value document "type".toList).toString
  if type = "auth_message".toList then
    some (.auth_message (QJsonObject.value document "auth_message_type".toList).toString)
  else if type = "error".toList then
    some (.error (QJsonObject.value document "error_type".toList).toString
      (QJsonObject.value document "description".toList).toString)
  else if type = "success".toList then some .success
  else none

/-- The flat mapping a request is, with its `type` discriminator; the entries
stand in key order. -/
def Request.toVariantMap : Request → QVariantMap
  | .create_session username =>
    [("type".toList, .String "create_session".toList), ("username".toList, .String username)]
  | .post_auth_message_response none =>
    [("type".toList, .String "post_auth_message_response".toList)]
  | .post_auth_message_response (some response) =>
    [("response".toList, .String response),
     ("type".toList, .String "post_auth_message_response".toList)]
  | .start_session cmd env =>
    [("cmd".toList, .StringList cmd), ("env".toList, .StringList env),
     ("type".toList, .String "start_session".toList)]
  | .cancel_session => [("type".toList, .String "cancel_session".toList)]

/-- The transition table of section 4.2 of the spec: the new state and the
request to send, if any, for a state and a response. -/
def specTransition (credential command : QString) (env : List QString) :
    LoginStatus → Response → LoginStatus × Option Request
  | state, .auth_message auth_message_type =>
    if auth_message_type = "secret".toList then
      (.TryToLoginSession, some (.post_auth_message_response (some credential)))
    else (state, some (.post_auth_message_response none))
  | _, .error _ _ => (.Errored, some .cancel_session)
  | .Errored, .success => (.CancelSessionSuccessded, none)
  | .TryToLoginSession, .success =>
    (.TryToStartSession, some (.start_session (split ' ' command) env))
  | .TryToStartSession, .success => (.LoginSuccessded, none)
  | state, .success => (state, none)

/-- The socket after the class has sent a request: the mapping goes through
`toJson().simplified()` and `roundtrip` writes the length and the payload. -/
def sent (sock : QLocalSocket) (request : QVariantMap) : QLocalSocket :=
  (sock.write (qint32Bytes (lengthUtf16 (simplified (toJson request))))).write
    (toUtf8 (simplified (toJson request)))

/-- The socket after an optional request. -/
def sentIfAny (sock : QLocalSocket) : Option Request → QLocalSocket
  | none => sock
  | some request => sent sock request.toVariantMap

/-- The number of requests the controller has sent: `roundtrip` calls `write`
twice for each. -/
def requestsSent (self : CommandLine) : Nat :=
  match self.m_greetd with
  | none => 0
  | some sock => sock.written.length / 2

/-- The number of `readyRead` events in a sequence. -/
def responsesReceived : List Event → Nat
  | [] => 0
  | .readyRead _ :: es => responsesReceived es + 1
  | _ :: es => responsesReceived es

/-- A controller as the constructor leaves it when `GREETD_SOCK` is set, for the
examples below. -/
def connectedController : CommandLine :=
  CommandLine.new "alice".toList "/run/greetd.sock".toList

/-- The documents the controller handles for a sequence of reads: one per
`readyRead`, decoded by the first lines of `handleDataRead`. -/
def documentsRead (chunks : List QByteArray) : List QJsonObject :=
  chunks.map CommandLine.readDocument

/-- The decoded payloads of a sequence of frames, one per frame, in order. -/
def decodedPayloads (payloads : List QByteArray) : List QJsonObject :=
  payloads.map fun payload => (QJsonDocument.fromJson payload).object

/-- Handling a sequence of decoded documents in order, on a controller that
has its socket. -/
def handleDocuments (self : CommandLine) : List QJsonObject → Option CommandLine
  | [] => some self
  | document :: rest =>
    match self.m_greetd with
    | none => none
    | some _ =>
      match self.handleDocument document with
      | none => none
      | some next => handleDocuments next rest

/-- Whether the controller handles the events and has then sent at most one
request more than it has received responses. -/
def withinOne (self : CommandLine) (events : List Event) : Bool :=
  match run self events with
  | none => false
  | some next => decide (requestsSent next ≤ responsesReceived events + 1)

/-- The single-flight property of a run: at every point of it, the requests
sent are at most the responses received plus one. -/
def SingleFlight (self : CommandLine) (events : List Event) : Prop :=
  ∀ k, withinOne self (events.take k) = true

/-- The broker answers requests only: in the run, a `readyRead` happens only
while a request is unanswered.  `received` counts the responses so far. -/
def brokerAnswersOnly (self : CommandLine) (received : Nat) : List Event → Bool
  | [] => true
  | .readyRead data :: es =>
    decide (received < requestsSent self) &&
      match step self (.readyRead data) with
      | none => true
      | some next => brokerAnswersOnly next (received + 1) es
  | e :: es =>
    match step self e with
    | none => true
    | some next => brokerAnswersOnly next received es

/-- The caller waits for the answer: in the run, `tryLogin` and `RequestLogin`
are called only while no request is unanswered.  `received` counts the
responses so far. -/
def callerWaits (self : CommandLine) (received : Nat) : List Event → Bool
  | [] => true
  | .readyRead data :: es =>
    match step self (.readyRead data) with
    | none => true
    | some next => callerWaits next (received + 1) es
  | .tryLogin :: es =>
    decide (requestsSent self ≤ received) &&
      match step self .tryLogin with
      | none => true
      | some next => callerWaits next received es
  | .RequestLogin :: es =>
    decide (requestsSent self ≤ received) &&
      match step self .RequestLogin with
      | none => true
      | some next => callerWaits next received es
  | e :: es =>
    match step self e with
    | none => true
    | some next => callerWaits next received es

/-- An event that delivers an `auth_message` of type `secret`. -/
def isSecretChallenge : Event → Bool
  | .readyRead data =>
    decide (Response.ofDocument (CommandLine.readDocument data) =
      some (.auth_message "secret".toList))
  | _ => false

/-- An event that delivers a `success`. -/
def isSuccess : Event → Bool
  | .readyRead data =>
    decide (Response.ofDocument (CommandLine.readDocument data) = some .success)
  | _ => false

/-- The events hold a secret challenge that at least `n` success responses
follow. -/
def SecretThenSuccesses (n : Nat) (events : List Event) : Prop :=
  ∃ before challenge after,
    events = before ++ challenge :: after ∧ isSecretChallenge challenge = true ∧
      n ≤ after.countP isSuccess

/-- The frame of a JSON text: the text in UTF-8 behind its header. -/
def frameOfText (text : String) : QByteArray :=
  specFrame (toUtf8 text.toList)

/-- The payload `{"type":"auth_message","auth_message_type":"secret"}`. -/
def secretChallengeText : String :=
  "\x7b\"type\":\"auth_message\",\"auth_message_type\":\"secret\"\x7d"

/-- The payload `{"type":"success"}`. -/
def successText : String :=
  "\x7b\"type\":\"success\"\x7d"

/-- The payload of scenario D of the spec. -/
def errorText : String :=
  "\x7b\"type\":\"error\",\"error_type\":\"auth\",\"description\":\"bad password\"\x7d"

/-- An error response whose `error_type` is the text `%1`. -/
def markerErrorText : String :=
  "\x7b\"type\":\"error\",\"error_type\":\"%1\",\"description\":\"bad password\"\x7d"

/-- A frame whose payload is not JSON. -/
def malformedFrame : QByteArray :=
  frameOfText "\x7b\"type\":"

/-- The payload of a secret challenge, in bytes. -/
def secretChallengePayload : QByteArray :=
  toUtf8 secretChallengeText.toList

/-- The payload of a `success`, in bytes. -/
def successPayload : QByteArray :=
  toUtf8 successText.toList

/-- The controller the constructor leaves when `GREETD_SOCK` is not set. -/
def unconnectedController : CommandLine :=
  CommandLine.new "alice".toList []

/-- The events of a whole login: the credential is set, `RequestLogin` is
called, the broker sends a secret challenge and then two `success`
responses. -/
def loginEvents : List Event :=
  [.setPassword "pw".toList, .RequestLogin, .readyRead (frameOfText secretChallengeText),
   .readyRead (frameOfText successText), .readyRead (frameOfText successText)]

/-! ## Auxiliary facts -/

namespace CommandLine

theorem roundtrip_connected (self : CommandLine) (sock : QLocalSocket) (payload : QString)
    (h : self.m_greetd = some sock) :
    self.roundtrip payload =
      some { self with m_greetd := some ((sock.write (qint32Bytes (lengthUtf16 payload))).write
        (toUtf8 payload)) } := by
  simp [CommandLine.roundtrip, h]

theorem assign_type_response (a b : QVariant) :
    QVariantMap.assign (QVariantMap.assign [] "type".toList a) "response".toList b =
      [("response".toList, b), ("type".toList, a)] := by
  rfl

theorem assign_type_username (a b : QVariant) :
    QVariantMap.assign (QVariantMap.assign [] "type".toList a) "username".toList b =
      [("type".toList, a), ("username".toList, b)] := by
  rfl

theorem assign_type_cmd_env (a b c : QVariant) :
    QVariantMap.assign (QVariantMap.assign (QVariantMap.assign [] "type".toList a)
      "cmd".toList b) "env".toList c =
      [("cmd".toList, b), ("env".toList, c), ("type".toList, a)] := by
  rfl

theorem handleAuthPasswordMessage_connected (self : CommandLine) (sock : QLocalSocket)
    (h : self.m_greetd = some sock) :
    self.handleAuthPasswordMessage =
      some { self with
        m_status := .TryToLoginSession
        m_isAuthing := true
        emitted := self.emitted ++ [.isAuthingChanged]
        m_greetd := some (sent sock
          (Request.post_auth_message_response (some self.m_password)).toVariantMap) } := by
  unfold CommandLine.handleAuthPasswordMessage
  simp only [assign_type_response]
  rw [roundtrip_connected _ sock]
  · rfl
  · exact h

theorem handleAuthMessageNone_connected (self : CommandLine) (sock : QLocalSocket)
    (h : self.m_greetd = some sock) :
    self.handleAuthMessageNone =
      some { self with
        m_greetd := some (sent sock (Request.post_auth_message_response none).toVariantMap) } := by
  unfold CommandLine.handleAuthMessageNone
  simp only
  rw [roundtrip_connected _ sock]
  · rfl
  · exact h

theorem handleAuthError_connected (self : CommandLine) (sock : QLocalSocket)
    (h : self.m_greetd = some sock) :
    self.handleAuthError =
      some { self with
        m_status := .Errored
        m_isAuthing := false
        emitted := self.emitted ++ [.isAuthingChanged]
        m_greetd := some (sent sock Request.cancel_session.toVariantMap) } := by
  unfold CommandLine.handleAuthError
  simp only
  rw [roundtrip_connected _ sock]
  · rfl
  · exact h

theorem handleSuccessded_connected (self : CommandLine) (sock : QLocalSocket)
    (h : self.m_greetd = some sock) :
    self.handleSuccessded =
      some { self with
        m_status := (specTransition self.m_password self.m_command self.m_env self.m_status
          .success).1
        m_greetd := some (sentIfAny sock
          (specTransition self.m_password self.m_command self.m_env self.m_status .success).2) } := by
  unfold CommandLine.handleSuccessded
  cases hst : self.m_status
  case TryToLoginSession =>
    simp only [assign_type_cmd_env]
    rw [roundtrip_connected _ sock]
    · rfl
    · exact h
  all_goals
    simp only [specTransition, sentIfAny]
    cases self
    simp_all

theorem handleDocument_table (self : CommandLine) (sock : QLocalSocket) (document : QJsonObject)
    (response : Response) (hsock : self.m_greetd = some sock)
    (hresp : Response.ofDocument document = some response) :
    ∃ next, self.handleDocument document = some next ∧
      next.m_status =
        (specTransition self.m_password self.m_command self.m_env self.m_status response).1 ∧
      next.m_greetd = some (sentIfAny sock
        (specTransition self.m_password self.m_command self.m_env self.m_status response).2) := by
  unfold Response.ofDocument at hresp
  simp only at hresp
  unfold CommandLine.handleDocument
  simp only
  split_ifs at hresp with h1 h2 h3
  · cases hresp
    rw [if_pos h1]
    by_cases hs : (QJsonObject.value document "auth_message_type".toList).toString = "secret".toList
    · rw [if_pos hs, handleAuthPasswordMessage_connected _ sock hsock]
      refine ⟨_, rfl, ?_, ?_⟩ <;> simp only [specTransition, if_pos hs, sentIfAny]
    · rw [if_neg hs, handleAuthMessageNone_connected _ sock hsock]
      refine ⟨_, rfl, ?_, ?_⟩ <;> simp only [specTransition, if_neg hs, sentIfAny]
  · cases hresp
    rw [if_neg h1, if_pos h2, handleAuthError_connected _ sock]
    · refine ⟨_, rfl, ?_, ?_⟩ <;> simp only [specTransition, sentIfAny]
    · exact hsock
  · cases hresp
    rw [if_neg h1, if_neg h2, if_pos h3, handleSuccessded_connected _ sock hsock]
    exact ⟨_, rfl, rfl, rfl⟩

theorem handleDataRead_connected (self : CommandLine) (sock : QLocalSocket) (data : QByteArray)
    (h : self.m_greetd = some sock) :
    self.handleDataRead data = self.handleDocument (readDocument data) := by
  simp only [handleDataRead, h]

theorem split_ne_nil (sep : Char) (s : QString) : split sep s ≠ [] := by
  cases s with
  | nil => simp [split]
  | cons c cs =>
    unfold split
    split_ifs
    · simp
    · split <;> simp

theorem split_no_separator (sep : Char) (s : QString) :
    ∀ token ∈ split sep s, sep ∉ token := by
  induction s with
  | nil => simp [split]
  | cons c cs ih =>
    unfold split
    split_ifs with hc
    · intro token ht
      rcases List.mem_cons.mp ht with rfl | ht
      · simp
      · exact ih token ht
    · split
      · intro token ht
        simp only [List.mem_singleton] at ht
        subst ht
        simpa using fun h => hc h.symm
      · rename_i w ws hw
        intro token ht
        rw [hw] at ih
        rcases List.mem_cons.mp ht with rfl | ht
        · intro hmem
          rcases List.mem_cons.mp hmem with h | h
          · exact hc h.symm
          · exact ih w (List.mem_cons_self _ _) h
        · exact ih token (List.mem_cons_of_mem _ ht)

theorem intercalate_cons_cons (sep x y : List Char) (ys : List (List Char)) :
    sep.intercalate (x :: y :: ys) = x ++ sep ++ sep.intercalate (y :: ys) := by
  simp [List.intercalate, List.intersperse]

theorem split_intercalate (sep : Char) (s : QString) :
    [sep].intercalate (split sep s) = s := by
  induction s with
  | nil => simp [split, List.intercalate]
  | cons c cs ih =>
    unfold split
    split_ifs with hc
    · cases hs : split sep cs with
      | nil => exact absurd hs (split_ne_nil sep cs)
      | cons w ws =>
        rw [intercalate_cons_cons, ← hs, ih, hc]
        rfl
    · split
      · rename_i hs
        exact absurd hs (split_ne_nil sep cs)
      · rename_i w ws hs
        rw [hs] at ih
        cases ws with
        | nil =>
          simp only [List.intercalate, List.intersperse, List.flatten] at ih ⊢
          simpa using ih
        | cons v vs =>
          rw [intercalate_cons_cons] at ih ⊢
          simpa using ih

/-! ## The claims -/

/-- C1 at a credential with two spaces in a row, and at one with non-ASCII
characters.  On a secret challenge the state becomes `TryToLoginSession` as the
table says, but the `post_auth_message_response` written does not carry the
stored credential: the text of the request goes through `simplified()`, so for
the credential `a  b` the payload written holds `a b`, and read back as JSON
its `response` is `a b`.  For the credential `pässwörd` the header written is
64 while 66 payload bytes follow. -/
theorem state_table_credential_on_wire :
    ((connectedController.setPassword "a  b".toList).handleDataRead
        (frameOfText secretChallengeText)).map (fun next => (next.m_status, next.m_greetd)) =
      some (.TryToLoginSession, some { written := [[59, 0, 0, 0],
        toUtf8 "\x7b \"response\": \"a b\", \"type\": \"post_auth_message_response\" \x7d".toList] }) ∧
    QJsonObject.value
        (QJsonDocument.fromJson (toUtf8
          "\x7b \"response\": \"a b\", \"type\": \"post_auth_message_response\" \x7d".toList)).object
        "response".toList = .String "a b".toList ∧
    "a b".toList ≠ "a  b".toList ∧
    ((connectedController.setPassword "pässwörd".toList).handleDataRead
        (frameOfText secretChallengeText)).map (fun next => (next.m_status, next.m_greetd)) =
      some (.TryToLoginSession, some { written := [[64, 0, 0, 0],
        toUtf8 "\x7b \"response\": \"pässwörd\", \"type\": \"post_auth_message_response\" \x7d".toList] }) ∧
    (toUtf8 "\x7b \"response\": \"pässwörd\", \"type\": \"post_auth_message_response\" \x7d".toList).length
      = 66 := by
  decide

set_option maxRecDepth 8192 in
/-- C6 at an environment entry with two spaces in a row.  On a `success` in
`TryToLoginSession` the state becomes `TryToStartSession` and a `start_session`
request is written whose `cmd` holds the tokens of the command, but its `env`
is not the list supplied: the text of the request goes through `simplified()`,
so for the entry `PS1=a  b` the payload written holds `PS1=a b`. -/
theorem start_session_env_on_wire :
    (({ connectedController with
          m_status := .TryToLoginSession
          m_command := "/bin/sh -c start".toList
          m_env := ["PS1=a  b".toList] } : CommandLine).handleDataRead
        (frameOfText successText)).map (fun next => (next.m_status, next.m_greetd)) =
      some (.TryToStartSession, some { written := [[86, 0, 0, 0],
        toUtf8 ("\x7b \"cmd\": [ \"/bin/sh\", \"-c\", \"start\" ], ".toList ++
          "\"env\": [ \"PS1=a b\" ], \"type\": \"start_session\" \x7d".toList)] }) ∧
    "PS1=a b".toList ≠ "PS1=a  b".toList := by
  decide

/-- C4, credential gating: in every state of the controller, `RequestLogin`
with an empty credential sends nothing (the socket is left as it was), sets the
error message to `password is needed`, emits `errorMessageChanged` and leaves
the session state and everything else unchanged. -/
theorem RequestLogin_empty_credential (self : CommandLine) (h : self.m_password = []) :
    ∃ next, self.RequestLogin = some next ∧
      next.m_greetd = self.m_greetd ∧
      next.m_errorMessage = "password is needed".toList ∧
      next.emitted = self.emitted ++ [.errorMessageChanged] ∧
      next.m_status = self.m_status ∧
      next = { self with
        m_errorMessage := "password is needed".toList
        emitted := self.emitted ++ [.errorMessageChanged] } := by
  refine ⟨{ self with
      m_errorMessage := "password is needed".toList
      emitted := self.emitted ++ [.errorMessageChanged] }, ?_, rfl, rfl, rfl, rfl, rfl⟩
  unfold RequestLogin
  rw [if_pos (by rw [h]; rfl)]

/-- Witness of C4: the freshly connected controller, which holds no credential
yet. -/
theorem RequestLogin_empty_credential_witness :
    connectedController.m_password = [] ∧
    ∃ next, connectedController.RequestLogin = some next ∧
      next.m_greetd = connectedController.m_greetd ∧
      next.m_errorMessage = "password is needed".toList ∧
      next.emitted = connectedController.emitted ++ [.errorMessageChanged] ∧
      next.m_status = connectedController.m_status ∧
      next = { connectedController with
        m_errorMessage := "password is needed".toList
        emitted := connectedController.emitted ++ [.errorMessageChanged] } :=
  ⟨by decide, RequestLogin_empty_credential connectedController (by decide)⟩

/-- C2 at payloads with a non-ASCII character: `roundtrip` writes the number of
UTF-16 code units of the payload as the header, not the number of bytes that
follow.  For the payload `é` the header says 1 and 2 bytes follow; for the
`create_session` request of the user `é` the header says 45 and 46 bytes
follow. -/
theorem roundtrip_header_counts_code_units :
    (connectedController.roundtrip "é".toList).map (fun next => next.m_greetd) =
      some (some { written := [[1, 0, 0, 0], [195, 169]] }) ∧
    ((connectedController.setUserName "é".toList).tryLogin).map (fun next => next.m_greetd) =
      some (some { written := [[45, 0, 0, 0],
        toUtf8 "\x7b \"type\": \"create_session\", \"username\": \"é\" \x7d".toList] }) ∧
    littleEndianValue [45, 0, 0, 0] = 45 ∧
    (toUtf8 "\x7b \"type\": \"create_session\", \"username\": \"é\" \x7d".toList).length = 46 := by
  decide

/-- C5 at scenario D and at an `error_type` that holds a place marker: for
`auth` and `bad password` the recorded message is `auth: bad password`, but
for the `error_type` `%1` the second `arg` call replaces the marker inside the
inserted text and the recorded message is `bad password: %2`. -/
theorem error_message_place_marker :
    (connectedController.handleDataRead (frameOfText errorText)).map
        (fun next => next.m_errorMessage) = some "auth: bad password".toList ∧
    (connectedController.handleDataRead (frameOfText markerErrorText)).map
        (fun next => next.m_errorMessage) = some "bad password: %2".toList := by
  decide

theorem readDocument_specFrame (payload : QByteArray) :
    readDocument (specFrame payload) = (QJsonDocument.fromJson payload).object := by
  rfl

theorem run_cons (self : CommandLine) (e : Event) (es : List Event) :
    run self (e :: es) =
      match step self e with
      | none => none
      | some next => run next es := by
  rfl

/-- C3 fails on the code, which takes every read for exactly one frame.  Two
frames that arrive in one read are both lost (the bytes behind the first four
do not parse, so nothing is handled), although read one by one they take the
controller to `TryToStartSession` with two requests sent; and a frame that
arrives in two reads is lost as well. -/
theorem inbound_delivery_counterexample :
    [specFrame secretChallengePayload ++ specFrame successPayload].flatten =
      ([secretChallengePayload, successPayload].map specFrame).flatten ∧
    documentsRead [specFrame secretChallengePayload ++ specFrame successPayload] ≠
      decodedPayloads [secretChallengePayload, successPayload] ∧
    run connectedController
        [.readyRead (specFrame secretChallengePayload ++ specFrame successPayload)] =
      some connectedController ∧
    (run connectedController
        [.readyRead (specFrame secretChallengePayload), .readyRead (specFrame successPayload)]).map
        (fun next => (next.m_status, requestsSent next)) =
      some (.TryToStartSession, 2) ∧
    [(specFrame successPayload).take 10, (specFrame successPayload).drop 10].flatten =
      ([successPayload].map specFrame).flatten ∧
    documentsRead [(specFrame successPayload).take 10, (specFrame successPayload).drop 10] ≠
      decodedPayloads [successPayload] ∧
    run { connectedController with m_status := .TryToStartSession }
        [.readyRead ((specFrame successPayload).take 10),
         .readyRead ((specFrame successPayload).drop 10)] =
      some { connectedController with m_status := .TryToStartSession } := by
  decide

/-- C3 as amended: when every read holds exactly one complete frame, the
documents handled by the controller are exactly the decoded payloads of the
frames, one per frame and in wire order, and the run of the reads is the
handling of these documents in that order. -/
theorem inbound_delivery_frame_per_read (self : CommandLine) (payloads : List QByteArray) :
    documentsRead (payloads.map specFrame) = decodedPayloads payloads ∧
    run self ((payloads.map specFrame).map .readyRead) =
      handleDocuments self (decodedPayloads payloads) := by
  constructor
  · simp [documentsRead, decodedPayloads, readDocument_specFrame]
  · induction payloads generalizing self with
    | nil => rfl
    | cons p ps ih =>
      simp only [List.map_cons, run_cons, step, decodedPayloads, handleDocuments, handleDataRead,
        readDocument_specFrame]
      cases self.m_greetd with
      | none => rfl
      | some sock =>
        simp only
        cases self.handleDocument (QJsonDocument.fromJson p).object with
        | none => rfl
        | some next => exact ih next

theorem handleDocument_empty (self : CommandLine) : self.handleDocument [] = some self := by
  rfl

/-- C7 fails on the code: a frame whose payload is not JSON is not reported and
the controller is not inert after it.  The read leaves the controller exactly
as it was, a later `error` response still moves it to `Errored` and makes it
send `cancel_session`, and a later `tryLogin` still sends `create_session`. -/
theorem malformed_frame_counterexample :
    QJsonDocument.fromJson (malformedFrame.drop 4) = .Null ∧
    connectedController.handleDataRead malformedFrame = some connectedController ∧
    (run connectedController [.readyRead malformedFrame, .readyRead (frameOfText errorText)]).map
        (fun next => (next.m_status, requestsSent next, next.m_errorMessage)) =
      some (.Errored, 1, "auth: bad password".toList) ∧
    (run connectedController [.readyRead malformedFrame, .tryLogin]).map requestsSent =
      some 1 := by
  decide

/-- C7 as amended: a read whose payload does not parse as JSON is ignored.  The
controller reports nothing, sends nothing and stays exactly as it was, so every
later response and call is handled as if the read had not happened. -/
theorem malformed_frame_ignored (self : CommandLine) (sock : QLocalSocket) (data : QByteArray)
    (hsock : self.m_greetd = some sock)
    (hbad : QJsonDocument.fromJson (data.drop 4) = .Null) :
    self.handleDataRead data = some self ∧
    ∀ events, run self (.readyRead data :: events) = run self events := by
  have h : self.handleDataRead data = some self := by
    rw [handleDataRead_connected self sock data hsock]
    unfold readDocument
    simp only [hbad]
    exact handleDocument_empty self
  refine ⟨h, fun events => ?_⟩
  rw [run_cons]
  simp only [step, h]

/-- Witness of C7 as amended: the frame with the payload `{"type":` on the
freshly connected controller. -/
theorem malformed_frame_ignored_witness :
    connectedController.m_greetd = some { written := [] } ∧
    QJsonDocument.fromJson (malformedFrame.drop 4) = .Null ∧
    connectedController.handleDataRead malformedFrame = some connectedController ∧
    ∀ events, run connectedController (.readyRead malformedFrame :: events) =
      run connectedController events :=
  ⟨by decide, by decide,
    malformed_frame_ignored connectedController { written := [] } malformedFrame
      (by decide) (by decide)⟩

theorem tryLogin_unconnected (self : CommandLine) (h : self.m_greetd = none) :
    self.tryLogin = some self := by
  simp only [tryLogin, h]

theorem step_unconnected (self next : CommandLine) (e : Event) (h : self.m_greetd = none)
    (hstep : step self e = some next) :
    next.m_greetd = none ∧ next.m_status = self.m_status := by
  cases e with
  | setPassword p => cases hstep; exact ⟨h, rfl⟩
  | setUserName u =>
    simp only [step, setUserName, Option.some.injEq] at hstep
    split_ifs at hstep <;> subst hstep <;> exact ⟨h, rfl⟩
  | setCommand c => cases hstep; exact ⟨h, rfl⟩
  | setEnv v => cases hstep; exact ⟨h, rfl⟩
  | tryLogin =>
    simp only [step, tryLogin_unconnected self h, Option.some.injEq] at hstep
    subst hstep
    exact ⟨h, rfl⟩
  | RequestLogin =>
    simp only [step, RequestLogin, tryLogin_unconnected self h] at hstep
    split_ifs at hstep <;> cases hstep <;> exact ⟨h, rfl⟩
  | readyRead data =>
    simp only [step, handleDataRead, h] at hstep
    cases hstep

theorem run_unconnected (self later : CommandLine) (events : List Event)
    (h : self.m_greetd = none) (hrun : run self events = some later) :
    later.m_greetd = none ∧ later.m_status = self.m_status := by
  induction events generalizing self with
  | nil => cases hrun; exact ⟨h, rfl⟩
  | cons e es ih =>
    rw [run_cons] at hrun
    cases hstep : step self e with
    | none => rw [hstep] at hrun; cases hrun
    | some next =>
      rw [hstep] at hrun
      obtain ⟨h1, h2⟩ := step_unconnected self next e h hstep
      obtain ⟨h3, h4⟩ := ih next h1 hrun
      exact ⟨h3, h4.trans h2⟩

theorem setUserName_keeps (self : CommandLine) (userName : QString) :
    (self.setUserName userName).m_greetd = self.m_greetd ∧
    (self.setUserName userName).m_status = self.m_status := by
  unfold setUserName
  split_ifs <;> exact ⟨rfl, rfl⟩

theorem connectToGreetd_empty (self : CommandLine) (h1 : self.m_greetd = none)
    (h2 : self.m_status = .Start) :
    (self.connectToGreetd []).m_greetd = none ∧ (self.connectToGreetd []).m_status = .Start ∧
    (self.connectToGreetd []).m_errorMessage = "Cannot connect to greetd".toList ∧
    Signal.errorMessageChanged ∈ (self.connectToGreetd []).emitted := by
  refine ⟨h1, h2, rfl, ?_⟩
  show Signal.errorMessageChanged ∈ self.emitted ++ [Signal.errorMessageChanged]
  simp

theorem new_unconnected (user : QString) :
    (CommandLine.new user []).m_greetd = none ∧ (CommandLine.new user []).m_status = .Start ∧
    (CommandLine.new user []).m_errorMessage = "Cannot connect to greetd".toList ∧
    Signal.errorMessageChanged ∈ (CommandLine.new user []).emitted := by
  unfold CommandLine.new
  simp only
  split_ifs
  · exact connectToGreetd_empty _ (setUserName_keeps _ _).1 (setUserName_keeps _ _).2
  · exact connectToGreetd_empty _ rfl rfl

/-- C8 fails on the code for the empty credential: on the controller built
without a broker address, which reports `Cannot connect to greetd` and holds
no credential, `RequestLogin` replaces the reported error message by
`password is needed`. -/
theorem unavailable_connection_counterexample :
    unconnectedController.m_greetd = none ∧
    unconnectedController.m_errorMessage = "Cannot connect to greetd".toList ∧
    unconnectedController.m_password = [] ∧
    unconnectedController.RequestLogin.map (fun next => next.m_errorMessage) =
      some "password is needed".toList := by
  decide

/-- C8 as amended: when the lookup of the broker address returns the empty
string, the constructor creates no socket and reports `Cannot connect to
greetd` at once.  After any later calls the controller still has no socket and
is still in `Start`; `tryLogin`, and `RequestLogin` with a credential that is
not empty, are no-ops that leave the whole controller as it is; `RequestLogin`
with the empty credential sends nothing and keeps the session state, but sets
the error message to `password is needed`. -/
theorem unavailable_connection (user : QString) (events : List Event) (later : CommandLine)
    (hrun : run (CommandLine.new user []) events = some later) :
    (CommandLine.new user []).m_greetd = none ∧
    (CommandLine.new user []).m_errorMessage = "Cannot connect to greetd".toList ∧
    Signal.errorMessageChanged ∈ (CommandLine.new user []).emitted ∧
    later.m_greetd = none ∧ later.m_status = .Start ∧
    later.tryLogin = some later ∧
    (later.m_password ≠ [] → later.RequestLogin = some later) ∧
    (later.m_password = [] →
      later.RequestLogin = some { later with
        m_errorMessage := "password is needed".toList
        emitted := later.emitted ++ [.errorMessageChanged] }) := by
  obtain ⟨h1, h2, h3, h4⟩ := new_unconnected user
  obtain ⟨h5, h6⟩ := run_unconnected _ later events h1 hrun
  refine ⟨h1, h3, h4, h5, h6.trans h2, tryLogin_unconnected later h5, ?_, ?_⟩
  · intro hp
    unfold RequestLogin
    rw [if_neg (by cases hm : later.m_password with
      | nil => exact absurd hm hp
      | cons c cs => simp [isEmpty])]
    exact tryLogin_unconnected later h5
  · intro hp
    unfold RequestLogin
    rw [if_pos (by rw [hp]; rfl)]

/-- Witness of C8 as amended: the controller built for the user `alice` without
a broker address, after a credential has been set and `RequestLogin` and
`tryLogin` have been called. -/
theorem unavailable_connection_witness :
    run (CommandLine.new "alice".toList [])
        [.setPassword "pw".toList, .RequestLogin, .tryLogin] =
      some ((CommandLine.new "alice".toList []).setPassword "pw".toList) ∧
    ((CommandLine.new "alice".toList []).setPassword "pw".toList).m_greetd = none ∧
    ((CommandLine.new "alice".toList []).setPassword "pw".toList).m_status = .Start ∧
    ((CommandLine.new "alice".toList []).setPassword "pw".toList).tryLogin =
      some ((CommandLine.new "alice".toList []).setPassword "pw".toList) :=
  have h := unavailable_connection "alice".toList
    [.setPassword "pw".toList, .RequestLogin, .tryLogin]
    ((CommandLine.new "alice".toList []).setPassword "pw".toList) (by decide)
  ⟨by decide, h.2.2.2.1, h.2.2.2.2.1, h.2.2.2.2.2.1⟩

theorem handleDocument_unknown (self : CommandLine) (document : QJsonObject)
    (h : Response.ofDocument document = none) : self.handleDocument document = some self := by
  unfold Response.ofDocument at h
  simp only at h
  unfold handleDocument
  simp only
  split_ifs at h with h1 h2 h3
  rw [if_neg h1, if_neg h2, if_neg h3]

theorem requestsSent_sent (self next : CommandLine) (sock : QLocalSocket) (request : QVariantMap)
    (h : self.m_greetd = some sock) (hn : next.m_greetd = some (sent sock request)) :
    requestsSent next = requestsSent self + 1 := by
  simp only [requestsSent, h, hn, sent, QLocalSocket.write, List.append_assoc, List.length_append,
    List.length_cons, List.length_nil]
  omega

theorem requestsSent_sentIfAny (self next : CommandLine) (sock : QLocalSocket)
    (request : Option Request) (h : self.m_greetd = some sock)
    (hn : next.m_greetd = some (sentIfAny sock request)) :
    requestsSent self ≤ requestsSent next ∧ requestsSent next ≤ requestsSent self + 1 := by
  cases request with
  | none =>
    simp only [sentIfAny] at hn
    simp only [requestsSent, h, hn]
    omega
  | some r =>
    have := requestsSent_sent self next sock r.toVariantMap h hn
    omega

theorem tryLogin_connected (self : CommandLine) (sock : QLocalSocket)
    (h : self.m_greetd = some sock) :
    self.tryLogin =
      some { self with
        m_greetd := some (sent sock (Request.create_session self.m_userName).toVariantMap) } := by
  unfold tryLogin
  simp only [h, assign_type_username]
  rw [roundtrip_connected _ sock]
  · rfl
  · exact h

/-- On a controller that has its socket every event is handled, the socket
stays, and at most one request is sent; the property setters send none. -/
theorem step_connected (self : CommandLine) (sock : QLocalSocket) (e : Event)
    (h : self.m_greetd = some sock) :
    ∃ next after, step self e = some next ∧ next.m_greetd = some after ∧
      requestsSent self ≤ requestsSent next ∧ requestsSent next ≤ requestsSent self + 1 := by
  cases e with
  | setPassword p => exact ⟨_, sock, rfl, h, le_refl _, Nat.le_succ _⟩
  | setUserName u =>
    refine ⟨_, sock, rfl, (setUserName_keeps self u).1.trans h, ?_, ?_⟩ <;>
      simp only [requestsSent, (setUserName_keeps self u).1] <;> omega
  | setCommand c => exact ⟨_, sock, rfl, h, le_refl _, Nat.le_succ _⟩
  | setEnv v => exact ⟨_, sock, rfl, h, le_refl _, Nat.le_succ _⟩
  | tryLogin =>
    have hs := requestsSent_sent self
      { self with
        m_greetd := some (sent sock (Request.create_session self.m_userName).toVariantMap) }
      sock _ h rfl
    exact ⟨_, _, tryLogin_connected self sock h, rfl, by omega, by omega⟩
  | RequestLogin =>
    simp only [step, RequestLogin]
    split_ifs
    · exact ⟨_, sock, rfl, h, le_refl _, Nat.le_succ _⟩
    · have hs := requestsSent_sent self
        { self with
          m_greetd := some (sent sock (Request.create_session self.m_userName).toVariantMap) }
        sock _ h rfl
      exact ⟨_, _, tryLogin_connected self sock h, rfl, by omega, by omega⟩
  | readyRead data =>
    simp only [step]
    rw [handleDataRead_connected self sock data h]
    cases hr : Response.ofDocument (readDocument data) with
    | none =>
      exact ⟨self, sock, handleDocument_unknown self _ hr, h, le_refl _, Nat.le_succ _⟩
    | some response =>
      obtain ⟨next, h1, -, h3⟩ := handleDocument_table self sock _ response h hr
      exact ⟨next, _, h1, h3, requestsSent_sentIfAny self next sock _ h h3⟩

theorem single_flight_from (events : List Event) :
    ∀ (self : CommandLine) (sock : QLocalSocket) (received k : Nat),
      self.m_greetd = some sock → requestsSent self ≤ received + 1 →
      callerWaits self received events = true →
      ∃ next, run self (events.take k) = some next ∧
        requestsSent next ≤ received + responsesReceived (events.take k) + 1 := by
  induction events with
  | nil =>
    intro self sock received k _ hle _
    exact ⟨self, by simp [run], by simpa [responsesReceived] using hle⟩
  | cons e es ih =>
    intro self sock received k h hle hw
    cases k with
    | zero => exact ⟨self, rfl, by simpa [responsesReceived] using hle⟩
    | succ k =>
      obtain ⟨mid, after, hstep, hafter, hlo, hhi⟩ := step_connected self sock e h
      rw [List.take_succ_cons, run_cons, hstep]
      cases e with
      | readyRead data =>
        simp only [callerWaits, hstep] at hw
        obtain ⟨next, h1, h2⟩ := ih mid after (received + 1) k hafter (by omega) hw
        exact ⟨next, h1, by simp only [responsesReceived]; omega⟩
      | tryLogin =>
        simp only [callerWaits, hstep, Bool.and_eq_true, decide_eq_true_eq] at hw
        obtain ⟨next, h1, h2⟩ := ih mid after received k hafter (by omega) hw.2
        exact ⟨next, h1, by simp only [responsesReceived]; omega⟩
      | RequestLogin =>
        simp only [callerWaits, hstep, Bool.and_eq_true, decide_eq_true_eq] at hw
        obtain ⟨next, h1, h2⟩ := ih mid after received k hafter (by omega) hw.2
        exact ⟨next, h1, by simp only [responsesReceived]; omega⟩
      | setPassword p =>
        simp only [callerWaits, hstep] at hw
        cases hstep
        obtain ⟨next, h1, h2⟩ := ih _ after received k hafter hle hw
        exact ⟨next, h1, by simp only [responsesReceived]; omega⟩
      | setCommand p =>
        simp only [callerWaits, hstep] at hw
        cases hstep
        obtain ⟨next, h1, h2⟩ := ih _ after received k hafter hle hw
        exact ⟨next, h1, by simp only [responsesReceived]; omega⟩
      | setEnv p =>
        simp only [callerWaits, hstep] at hw
        cases hstep
        obtain ⟨next, h1, h2⟩ := ih _ after received k hafter hle hw
        exact ⟨next, h1, by simp only [responsesReceived]; omega⟩
      | setUserName u =>
        simp only [callerWaits, hstep] at hw
        cases hstep
        have hsame : requestsSent (self.setUserName u) = requestsSent self := by
          simp only [requestsSent, (setUserName_keeps self u).1]
        obtain ⟨next, h1, h2⟩ := ih _ after received k hafter (by omega) hw
        exact ⟨next, h1, by simp only [responsesReceived]; omega⟩

/-- C9 fails on the code: `tryLogin` sends `create_session` whenever there is a
socket, whether or not an earlier request has been answered.  Two calls in a
row on the freshly connected controller in `Start` leave two requests sent and
no response received. -/
theorem single_flight_counterexample :
    connectedController.m_status = .Start ∧
    connectedController.m_greetd = some { written := [] } ∧
    brokerAnswersOnly connectedController 0 [.tryLogin, .tryLogin] = true ∧
    (run connectedController [.tryLogin, .tryLogin]).map requestsSent = some 2 ∧
    responsesReceived [.tryLogin, .tryLogin] = 0 ∧
    ¬ SingleFlight connectedController [.tryLogin, .tryLogin] := by
  refine ⟨by decide, by decide, by decide, by decide, by decide, fun h => ?_⟩
  exact absurd (h 2) (by decide)

/-- C9 as amended: on a controller with a fresh socket, in every run in which
the broker answers requests only and the caller calls `tryLogin` and
`RequestLogin` only while no request is unanswered, every event is handled and
at every point the requests sent are at most the responses received plus
one. -/
theorem single_flight_when_caller_waits (self : CommandLine) (events : List Event)
    (hsock : self.m_greetd = some { written := [] })
    (_hbroker : brokerAnswersOnly self 0 events = true)
    (hcaller : callerWaits self 0 events = true) :
    SingleFlight self events := by
  intro k
  obtain ⟨next, h1, h2⟩ := single_flight_from events self { written := [] } 0 k hsock
    (by simp [requestsSent, hsock]) hcaller
  simp only [withinOne, h1, decide_eq_true_eq]
  omega

/-- Witness of C9 as amended: a whole login in which each call and each
response waits for the other side. -/
theorem single_flight_when_caller_waits_witness :
    connectedController.m_greetd = some { written := [] } ∧
    brokerAnswersOnly connectedController 0
      [.setPassword "pw".toList, .RequestLogin, .readyRead (frameOfText secretChallengeText),
       .readyRead (frameOfText successText), .readyRead (frameOfText successText)] = true ∧
    callerWaits connectedController 0
      [.setPassword "pw".toList, .RequestLogin, .readyRead (frameOfText secretChallengeText),
       .readyRead (frameOfText successText), .readyRead (frameOfText successText)] = true ∧
    SingleFlight connectedController
      [.setPassword "pw".toList, .RequestLogin, .readyRead (frameOfText secretChallengeText),
       .readyRead (frameOfText successText), .readyRead (frameOfText successText)] :=
  ⟨by decide, by decide, by decide,
    single_flight_when_caller_waits connectedController
      [.setPassword "pw".toList, .RequestLogin, .readyRead (frameOfText secretChallengeText),
       .readyRead (frameOfText successText), .readyRead (frameOfText successText)]
      (by decide) (by decide) (by decide)⟩

theorem run_append_single (self : CommandLine) (es : List Event) (e : Event) :
    run self (es ++ [e]) =
      match run self es with
      | none => none
      | some mid => step mid e := by
  induction es generalizing self with
  | nil =>
    simp only [List.nil_append, run_cons, run]
    cases step self e <;> rfl
  | cons x xs ih =>
    simp only [List.cons_append, run_cons]
    cases step self x with
    | none => rfl
    | some next => exact ih next

theorem secretThenSuccesses_append (n : Nat) (es : List Event) (e : Event)
    (h : SecretThenSuccesses n es) : SecretThenSuccesses n (es ++ [e]) := by
  obtain ⟨before, challenge, after, h1, h2, h3⟩ := h
  refine ⟨before, challenge, after ++ [e], by simp [h1], h2, ?_⟩
  rw [List.countP_append]
  omega

theorem secretThenSuccesses_success (n : Nat) (es : List Event) (e : Event)
    (h : SecretThenSuccesses n es) (he : isSuccess e = true) :
    SecretThenSuccesses (n + 1) (es ++ [e]) := by
  obtain ⟨before, challenge, after, h1, h2, h3⟩ := h
  refine ⟨before, challenge, after ++ [e], by simp [h1], h2, ?_⟩
  rw [List.countP_append]
  simp only [List.countP_cons, List.countP_nil, he, if_true]
  omega

theorem secretThenSuccesses_challenge (es : List Event) (e : Event)
    (he : isSecretChallenge e = true) : SecretThenSuccesses 0 (es ++ [e]) :=
  ⟨es, e, [], rfl, he, Nat.zero_le _⟩

theorem roundtrip_status (self next : CommandLine) (payload : QString)
    (h : self.roundtrip payload = some next) : next.m_status = self.m_status := by
  unfold roundtrip at h
  cases hg : self.m_greetd with
  | none => simp [hg] at h
  | some sock =>
    simp only [hg, Option.some.injEq] at h
    subst h
    rfl

theorem step_call_status (self next : CommandLine) (e : Event)
    (hcall : ∀ data, e ≠ .readyRead data) (h : step self e = some next) :
    next.m_status = self.m_status := by
  cases e with
  | setPassword p => cases h; rfl
  | setUserName u => cases h; exact (setUserName_keeps self u).2
  | setCommand c => cases h; rfl
  | setEnv v => cases h; rfl
  | tryLogin =>
    simp only [step, tryLogin] at h
    cases hg : self.m_greetd with
    | none =>
      simp only [hg, Option.some.injEq] at h
      subst h
      rfl
    | some sock =>
      simp only [hg] at h
      exact roundtrip_status _ _ _ h
  | RequestLogin =>
    simp only [step, RequestLogin, tryLogin] at h
    split_ifs at h
    · cases h; rfl
    · cases hg : self.m_greetd with
      | none =>
        simp only [hg, Option.some.injEq] at h
        subst h
        rfl
      | some sock =>
        simp only [hg] at h
        exact roundtrip_status _ _ _ h
  | readyRead data => exact absurd rfl (hcall data)

theorem login_progress (events : List Event) :
    ∀ (self next : CommandLine), self.m_status = .Start → run self events = some next →
      (next.m_status = .TryToLoginSession → SecretThenSuccesses 0 events) ∧
      (next.m_status = .TryToStartSession → SecretThenSuccesses 1 events) ∧
      (next.m_status = .LoginSuccessded → SecretThenSuccesses 2 events) := by
  induction events using List.reverseRecOn with
  | nil =>
    intro self next hstart hrun
    cases hrun
    simp [hstart]
  | append_singleton es e ih =>
    intro self next hstart hrun
    rw [run_append_single] at hrun
    cases hmid : run self es with
    | none => rw [hmid] at hrun; cases hrun
    | some mid =>
      rw [hmid] at hrun
      simp only at hrun
      obtain ⟨i0, i1, i2⟩ := ih self mid hstart hmid
      by_cases hread : ∃ data, e = .readyRead data
      · obtain ⟨data, rfl⟩ := hread
        simp only [step, handleDataRead] at hrun
        cases hg : mid.m_greetd with
        | none => simp [hg] at hrun
        | some sock =>
          simp only [hg] at hrun
          cases hr : Response.ofDocument (readDocument data) with
          | none =>
            rw [handleDocument_unknown mid _ hr] at hrun
            cases hrun
            exact ⟨fun h => secretThenSuccesses_append _ _ _ (i0 h),
              fun h => secretThenSuccesses_append _ _ _ (i1 h),
              fun h => secretThenSuccesses_append _ _ _ (i2 h)⟩
          | some response =>
            obtain ⟨next2, h1, h2, -⟩ := handleDocument_table mid sock _ response hg hr
            rw [h1] at hrun
            cases hrun
            cases response with
            | auth_message t =>
              by_cases ht : t = "secret".toList
              · subst ht
                have hc : isSecretChallenge (.readyRead data) = true := by
                  simp only [isSecretChallenge, hr, decide_True]
                have hs := secretThenSuccesses_challenge es _ hc
                simp only [specTransition, if_true] at h2
                simp [h2, hs]
              · simp only [specTransition, if_neg ht] at h2
                rw [h2]
                exact ⟨fun h => secretThenSuccesses_append _ _ _ (i0 h),
                  fun h => secretThenSuccesses_append _ _ _ (i1 h),
                  fun h => secretThenSuccesses_append _ _ _ (i2 h)⟩
            | error a b =>
              simp only [specTransition] at h2
              simp [h2]
            | success =>
              have hc : isSuccess (.readyRead data) = true := by
                simp only [isSuccess, hr, decide_True]
              cases hst : mid.m_status <;> rw [hst] at h2 <;>
                simp only [specTransition] at h2 <;> rw [h2] <;>
                simp only [hst, false_implies, true_implies, true_and, and_true, and_self,
                  reduceCtorEq] at i0 i1 i2 ⊢
              · exact secretThenSuccesses_success _ _ _ i0 hc
              · exact secretThenSuccesses_success _ _ _ i1 hc
              · exact secretThenSuccesses_append _ _ _ i2
      · have hcall : ∀ data, e ≠ .readyRead data := fun data h => hread ⟨data, h⟩
        have hs := step_call_status mid next e hcall hrun
        rw [hs]
        exact ⟨fun h => secretThenSuccesses_append _ _ _ (i0 h),
          fun h => secretThenSuccesses_append _ _ _ (i1 h),
          fun h => secretThenSuccesses_append _ _ _ (i2 h)⟩

/-- C10, no authentication bypass: whatever calls and responses a controller
that starts in `Start` goes through, if it ends in `LoginSuccessded` then the
responses hold an `auth_message` of type `secret` that at least two `success`
responses follow. -/
theorem no_authentication_bypass (self next : CommandLine) (events : List Event)
    (hstart : self.m_status = .Start) (hrun : run self events = some next)
    (hdone : next.m_status = .LoginSuccessded) :
    SecretThenSuccesses 2 events :=
  (login_progress events self next hstart hrun).2.2 hdone

/-- Witness of C10: the whole login `loginEvents` takes the freshly connected
controller from `Start` to `LoginSuccessded`, and its responses hold the secret
challenge and two `success` responses after it. -/
theorem no_authentication_bypass_witness :
    connectedController.m_status = .Start ∧
    (run connectedController loginEvents).map (fun next => next.m_status) =
      some .LoginSuccessded ∧
    SecretThenSuccesses 2 loginEvents := by
  have hdone : (run connectedController loginEvents).map (fun next => next.m_status) =
      some .LoginSuccessded := by decide
  refine ⟨by decide, hdone, ?_⟩
  cases hrun : run connectedController loginEvents with
  | none => rw [hrun] at hdone; cases hdone
  | some next =>
    rw [hrun] at hdone
    exact no_authentication_bypass connectedController next loginEvents (by decide) hrun
      (Option.some.inj hdone)

/-! ## Further facts about the code -/

theorem lengthUtf16_ascii (payload : QString) (h : ∀ c ∈ payload, c.toNat < 128) :
    lengthUtf16 payload = payload.length := by
  induction payload with
  | nil => rfl
  | cons c cs ih =>
    have hc : c.toNat < 128 := h c (List.mem_cons_self _ _)
    have ih2 := ih fun d hd => h d (List.mem_cons_of_mem _ hd)
    simp only [lengthUtf16, List.map_cons, List.sum_cons, List.length_cons] at ih2 ⊢
    rw [ih2, utf16Units, if_pos (by omega)]
    omega

theorem toUtf8_ascii (payload : QString) (h : ∀ c ∈ payload, c.toNat < 128) :
    (toUtf8 payload).length = payload.length := by
  induction payload with
  | nil => rfl
  | cons c cs ih =>
    have hc : c.toNat < 128 := h c (List.mem_cons_self _ _)
    have ih2 := ih fun d hd => h d (List.mem_cons_of_mem _ hd)
    simp only [toUtf8, List.flatMap_cons, List.length_append, List.length_cons] at ih2 ⊢
    rw [ih2, utf8EncodeChar]
    simp only [if_pos hc, List.length_cons, List.length_nil]
    omega

theorem littleEndianValue_qint32Bytes (n : Nat) (h : n < 2 ^ 32) :
    littleEndianValue (qint32Bytes n) = n := by
  simp only [qint32Bytes, littleEndianValue, Nat.mod_eq_of_lt h]
  omega

/-- For a payload of ASCII characters shorter than 2^32, `roundtrip` writes the
frame of the spec: a header whose little-endian value is the number of payload
bytes, then the payload. -/
theorem roundtrip_ascii_frame (self : CommandLine) (sock : QLocalSocket) (payload : QString)
    (hsock : self.m_greetd = some sock) (hascii : ∀ c ∈ payload, c.toNat < 128)
    (hlen : payload.length < 2 ^ 32) :
    ∃ next header, self.roundtrip payload = some next ∧
      next.m_greetd = some { written := sock.written ++ [header, toUtf8 payload] } ∧
      header.length = 4 ∧
      littleEndianValue header = (toUtf8 payload).length ∧
      header ++ toUtf8 payload = specFrame (toUtf8 payload) := by
  refine ⟨_, qint32Bytes (lengthUtf16 payload), roundtrip_connected self sock payload hsock,
    ?_, rfl, ?_, ?_⟩
  · simp [QLocalSocket.write]
  · rw [lengthUtf16_ascii payload hascii, toUtf8_ascii payload hascii]
    exact littleEndianValue_qint32Bytes _ hlen
  · rw [lengthUtf16_ascii payload hascii, specFrame, toUtf8_ascii payload hascii]

/-- The `create_session` payload of the user `alice` on the freshly connected
controller. -/
theorem roundtrip_ascii_frame_witness :
    ∃ next header,
      connectedController.roundtrip
        "\x7b \"type\": \"create_session\", \"username\": \"alice\" \x7d".toList = some next ∧
      next.m_greetd = some { written := [] ++ [header,
        toUtf8 "\x7b \"type\": \"create_session\", \"username\": \"alice\" \x7d".toList] } ∧
      header.length = 4 ∧
      littleEndianValue header =
        (toUtf8 "\x7b \"type\": \"create_session\", \"username\": \"alice\" \x7d".toList).length ∧
      header ++ toUtf8 "\x7b \"type\": \"create_session\", \"username\": \"alice\" \x7d".toList =
        specFrame (toUtf8
          "\x7b \"type\": \"create_session\", \"username\": \"alice\" \x7d".toList) :=
  roundtrip_ascii_frame connectedController { written := [] }
    "\x7b \"type\": \"create_session\", \"username\": \"alice\" \x7d".toList
    (by decide) (by decide) (by decide)

theorem argScan_plain_append (text rest : List Char) (h : '%' ∉ text) :
    argScan .plain (text ++ rest) = text.map .text ++ argScan .plain rest := by
  induction text with
  | nil => rfl
  | cons c cs ih =>
    have hc : c ≠ '%' := fun hc => h (hc ▸ List.mem_cons_self _ _)
    have hcs : '%' ∉ cs := fun hm => h (List.mem_cons_of_mem _ hm)
    show argScan .plain (c :: (cs ++ rest)) = .text c :: (cs.map .text ++ argScan .plain rest)
    rw [argScan, if_neg hc, ih hcs]

theorem lowestEscape_text_append (text : List Char) (rest : List ArgPiece) :
    lowestEscape (text.map .text ++ rest) = lowestEscape rest := by
  induction text with
  | nil => rfl
  | cons c cs ih => simpa [lowestEscape] using ih

theorem arg_first (error_type : QString) :
    arg "%1: %2".toList error_type = error_type ++ ": %2".toList := by
  rfl

theorem arg_second (error_type description : QString) (h : '%' ∉ error_type) :
    arg (error_type ++ ": %2".toList) description = error_type ++ ": ".toList ++ description := by
  have hs : argScan .plain (error_type ++ ": %2".toList) =
      error_type.map .text ++ [.text ':', .text ' ', .escape 2 ['%', '2']] := by
    rw [argScan_plain_append _ _ h]
    rfl
  unfold arg
  rw [hs, lowestEscape_text_append]
  simp only [lowestEscape, List.flatMap_append, List.flatMap_cons, List.flatMap_nil, if_true,
    List.append_nil]
  have : (error_type.map ArgPiece.text).flatMap (fun p =>
      match p with
      | .text c => [c]
      | .escape n raw => if n = 2 then description else raw) = error_type := by
    induction error_type with
    | nil => rfl
    | cons c cs ih =>
      have hcs : '%' ∉ cs := fun hm => h (List.mem_cons_of_mem _ hm)
      simp only [List.map_cons, List.flatMap_cons, List.singleton_append, List.cons.injEq,
        true_and]
      exact ih hcs (by rw [argScan_plain_append _ _ hcs]; rfl)
  rw [this]
  simp

/-- When the `error_type` of an `error` response holds no `%`, the message the
controller records is the `error_type`, then `: `, then the description. -/
theorem error_message_without_percent (self : CommandLine) (sock : QLocalSocket)
    (data : QByteArray) (error_type description : QString)
    (hsock : self.m_greetd = some sock)
    (hresp : Response.ofDocument (readDocument data) = some (.error error_type description))
    (hpercent : '%' ∉ error_type) :
    ∃ next, self.handleDataRead data = some next ∧
      next.m_errorMessage = error_type ++ ": ".toList ++ description ∧
      next.m_status = .Errored := by
  rw [handleDataRead_connected self sock data hsock]
  unfold Response.ofDocument at hresp
  simp only at hresp
  unfold handleDocument
  simp only
  split_ifs at hresp with h1 h2 h3
  · simp at hresp
  · simp only [Option.some.injEq, Response.error.injEq] at hresp
    rw [if_neg h1, if_pos h2, hresp.1, hresp.2, handleAuthError_connected _ sock]
    · exact ⟨_, rfl, by rw [arg_first]; exact arg_second _ _ hpercent, rfl⟩
    · exact hsock
  · simp at hresp

/-- Scenario D of the spec on the freshly connected controller. -/
theorem error_message_without_percent_witness :
    ∃ next, connectedController.handleDataRead (frameOfText errorText) = some next ∧
      next.m_errorMessage = "auth".toList ++ ": ".toList ++ "bad password".toList ∧
      next.m_status = .Errored :=
  error_message_without_percent connectedController { written := [] } (frameOfText errorText)
    "auth".toList "bad password".toList (by decide) (by decide) (by decide)

/-- On a controller that has its socket, for every current state and every
inbound response, `handleDataRead` ends in the state that the table of section
4.2 gives, and it writes one request when the table gives one and none when
the table gives none. -/
theorem handleDataRead_state_follows_table (self : CommandLine) (sock : QLocalSocket)
    (data : QByteArray) (response : Response) (hsock : self.m_greetd = some sock)
    (hresp : Response.ofDocument (readDocument data) = some response) :
    ∃ next, self.handleDataRead data = some next ∧
      next.m_status =
        (specTransition self.m_password self.m_command self.m_env self.m_status response).1 ∧
      requestsSent next = requestsSent self +
        (if (specTransition self.m_password self.m_command self.m_env self.m_status
          response).2.isSome then 1 else 0) := by
  obtain ⟨next, h1, h2, h3⟩ := handleDocument_table self sock _ response hsock hresp
  rw [← handleDataRead_connected self sock data hsock] at h1
  refine ⟨next, h1, h2, ?_⟩
  cases hreq : (specTransition self.m_password self.m_command self.m_env self.m_status
      response).2 with
  | none =>
    rw [hreq] at h3
    simp only [sentIfAny] at h3
    simp [requestsSent, hsock, h3]
  | some request =>
    rw [hreq] at h3
    simpa using requestsSent_sent self next sock request.toVariantMap hsock h3

/-- The freshly connected controller on a secret challenge: the state becomes
`TryToLoginSession` and one request is written. -/
theorem handleDataRead_state_follows_table_witness :
    ∃ next, connectedController.handleDataRead (frameOfText secretChallengeText) = some next ∧
      next.m_status = .TryToLoginSession ∧
      requestsSent next = requestsSent connectedController + 1 :=
  handleDataRead_state_follows_table connectedController { written := [] }
    (frameOfText secretChallengeText) (.auth_message "secret".toList) (by decide) (by decide)

/-- The tokens of `split` at the space: no token holds a space, and the tokens
joined by single spaces are the command again; the command `/bin/sh -c start`
gives `/bin/sh`, `-c` and `start`. -/
theorem split_tokens_rejoin (command : QString) :
    (∀ token ∈ split ' ' command, ' ' ∉ token) ∧
    [' '].intercalate (split ' ' command) = command ∧
    split ' ' "/bin/sh -c start".toList = ["/bin/sh".toList, "-c".toList, "start".toList] :=
  ⟨split_no_separator ' ' command, split_intercalate ' ' command, by decide⟩

end CommandLine
